import Mathlib

/-!
Shallow embedding of `parser/docwriter/docwriter.go` (package `docwriter`).

The Go file implements a concurrent document writer: producers call `Write`
to register the destination database and enqueue a `Document` on a channel,
a pool of `writeLoop` workers dequeues documents, applies a whitelist check,
inserts into the database and on failure retries via `expFalloff`; `Flush`
closes the channel and waits on a `sync.WaitGroup`.

Database inserts are external effects; they are modelled by oracles
(`Document → InsertResult` for the worker's insert, `Document → Nat →
InsertResult` for the retry engine's insert on falloff iteration `i`), with
`none` standing for a successful insert and `some msg` for a failed one
carrying the error text, exactly the shape of Go's `error` result.
-/

namespace DocWriter

/-- `Document` (docwriter.go lines 18-22): one item to be written.  The Go
`Doc interface{}` payload is opaque to the writer (it is only handed to the
driver), so it is modelled as a `String`. -/
structure Document where
  Doc  : String
  DB   : String
  Coll : String
deriving DecidableEq

/-- Result of one `Insert` call: `none` = success, `some msg` = the error. -/
abbrev InsertResult := Option String

/-- Go `strings.Contains(s, sub)`: `sub` occurs contiguously in `s`. -/
def strContains (s sub : String) : Bool :=
  (List.range (s.data.length + 1)).any fun i => sub.data.isPrefixOf (s.data.drop i)

/-- `isWhitelisted` (docwriter.go lines 111-121): `nil` whitelist returns
`false` at once (modelled by `none`, a non-nil slice by `some`); otherwise
the loop returns `true` on the first element contained in `url`, `false`
when the loop finishes. -/
def isWhitelisted (whitelist : Option (List String)) (url : String) : Bool :=
  match whitelist with
  | none => false
  | some wl => wl.any fun pat => strContains url pat

/-- The fixed subject `writeLoop` passes to `isWhitelisted` (line 144). -/
def wholesomeSubject : String := "This is a cool wholesome string"

/-- Observable outcome of one `expFalloff` call. -/
structure FalloffResult where
  /-- Number of `Insert` calls the falloff loop made. -/
  attempts  : Nat
  /-- The `time.Sleep` durations, in seconds, in order. -/
  sleeps    : List Nat
  /-- Number of "Database write failure" log entries emitted by the loop. -/
  errorLogs : Nat
  /-- Whether some retry insert succeeded (the early `return`). -/
  succeeded : Bool
deriving DecidableEq

/-- `expFalloff` (docwriter.go lines 170-188) from loop index `i` with
`fuel = 5 - i` remaining iterations of `for i := 0; i < 5; i++`.  Each
iteration sleeps `i*i` seconds, inserts (`ins i`), returns on success and
logs the failure otherwise. -/
def expFalloffFrom (ins : Nat → InsertResult) : Nat → Nat → FalloffResult
  | 0, _ => { attempts := 0, sleeps := [], errorLogs := 0, succeeded := false }
  | fuel + 1, i =>
    match ins i with
    | none => { attempts := 1, sleeps := [i * i], errorLogs := 0, succeeded := true }
    | some _ =>
      let r := expFalloffFrom ins fuel (i + 1)
      { attempts := r.attempts + 1, sleeps := i * i :: r.sleeps,
        errorLogs := r.errorLogs + 1, succeeded := r.succeeded }

/-- `expFalloff`: the full loop, `i` from `0` while `i < 5`. -/
def expFalloff (ins : Nat → InsertResult) : FalloffResult :=
  expFalloffFrom ins 5 0

/-- The configuration `writeLoop` consults: `d.Whitelist` and `d.ImportWl`. -/
structure WriterConfig where
  Whitelist : Option (List String)
  ImportWl  : Bool
deriving DecidableEq

/-- Observable outcome of one `writeLoop` iteration on a dequeued document. -/
structure StepResult where
  /-- The `isWhitelisted` check's value on this iteration. -/
  filtered      : Bool
  /-- Whether the iteration's own `Insert` (one of lines 146 or 149) ran. -/
  attempted     : Bool
  /-- Value of the loop-scoped `err` variable after the iteration. -/
  errOut        : InsertResult
  /-- Whether `expFalloff` was invoked (the `if err != nil` branch). -/
  retried       : Bool
  /-- `Insert` calls made by the `expFalloff` invocation (0 when none). -/
  retryAttempts : Nat
  /-- Error log entries emitted by the `expFalloff` invocation. -/
  retryLogs     : Nat
  /-- The iteration's own "Database write failure" log (line 155). -/
  loopLogs      : Nat
  /-- Total seconds slept in backoff. -/
  sleepTotal    : Nat
  /-- Whether some insert of this document succeeded. -/
  inserted      : Bool
deriving DecidableEq

/-- One iteration of `writeLoop` (docwriter.go lines 125-167) on document
`doc`.  `errIn` is the value the loop-scoped `var err error` holds when the
iteration starts; `ins1 doc` is the outcome the driver would give the
iteration's own insert, `rIns doc i` the outcome of the retry insert on
falloff iteration `i`.  Mirrors the source exactly: the whitelist check uses
the fixed `wholesomeSubject`, `err` is only reassigned on the two `Insert`
lines, and a non-nil `err` (fresh or stale) triggers the log and
`expFalloff`.  (The `spew.Dump` on "ObjectIDs" errors is a pure diagnostic
print and is not tracked.) -/
def processDoc (cfg : WriterConfig) (ins1 : Document → InsertResult)
    (rIns : Document → Nat → InsertResult) (errIn : InsertResult)
    (doc : Document) : StepResult :=
  let filtered := isWhitelisted cfg.Whitelist wholesomeSubject
  let attempted := !filtered || cfg.ImportWl
  let err := if attempted then ins1 doc else errIn
  match err with
  | none =>
    { filtered := filtered, attempted := attempted, errOut := none, retried := false,
      retryAttempts := 0, retryLogs := 0, loopLogs := 0, sleepTotal := 0,
      inserted := attempted }
  | some e =>
    let f := expFalloff (rIns doc)
    { filtered := filtered, attempted := attempted, errOut := some e, retried := true,
      retryAttempts := f.attempts, retryLogs := f.errorLogs, loopLogs := 1,
      sleepTotal := f.sleeps.sum, inserted := f.succeeded }

/-- Insert attempts this iteration made for its document: the iteration's
own insert plus the retry engine's. -/
def StepResult.insertAttempts (r : StepResult) : Nat :=
  (if r.attempted then 1 else 0) + r.retryAttempts

/-- Error log entries this iteration emitted. -/
def StepResult.errorLogs (r : StepResult) : Nat := r.loopLogs + r.retryLogs

/-- A worker draining a queue of documents: `writeLoop` iterations in order,
threading the loop-scoped `err` variable from one iteration to the next. -/
def writeLoopRun (cfg : WriterConfig) (ins1 : Document → InsertResult)
    (rIns : Document → Nat → InsertResult) :
    InsertResult → List Document → List (Document × StepResult)
  | _, [] => []
  | errIn, d :: ds =>
    let r := processDoc cfg ins1 rIns errIn d
    (d, r) :: writeLoopRun cfg ins1 rIns r.errOut ds

/-- The `DocWriter` fields `Write` and `Flush` touch: the database-name
prefix `pre`, the `Databases` cache, the calls made to `Meta.AddNewDB`
(recorded in order), whether `close(d.wchan)` has run, and the channel's
queued contents. -/
structure DWState where
  pre           : String
  databases     : List String
  addNewDBCalls : List String
  closed        : Bool
  queue         : List Document
deriving DecidableEq

/-- Outcome of a `Write` call.  Go semantics: a send on a closed channel is
a runtime panic, which no `recover` in the file intercepts. -/
inductive WriteResult where
  | ok (s : DWState)
  | panicked (msg : String)
deriving DecidableEq

/-- The `dblock` critical section of `Write` (docwriter.go lines 79-90):
scan `Databases` for `db` (Go `==` on strings is equality); when absent,
call `Meta.AddNewDB(db)` and append `db` to `Databases`. -/
def registerDB (s : DWState) (db : String) : DWState :=
  if db ∈ s.databases then s
  else { s with databases := s.databases ++ [db],
                addNewDBCalls := s.addNewDBCalls ++ [db] }

/-- `Write` (docwriter.go lines 76-93): prefix the destination database,
run the registry critical section, then `d.wchan <- doc`.  The send panics
when the channel is closed and enqueues otherwise. -/
def Write (s : DWState) (doc : Document) : WriteResult :=
  let doc2 : Document := { doc with DB := s.pre ++ doc.DB }
  let s2 := registerDB s doc2.DB
  if s2.closed then WriteResult.panicked "send on closed channel"
  else WriteResult.ok { s2 with queue := s2.queue ++ [doc2] }

/-- The first effect of `Flush` (docwriter.go line 98): `close(d.wchan)`. -/
def flushClose (s : DWState) : DWState := { s with closed := true }

/-- A sequence of `Write` calls; `none` when one of them panicked. -/
def runWrites (s : DWState) : List Document → Option DWState
  | [] => some s
  | d :: ds =>
    match Write s d with
    | WriteResult.ok s2 => runWrites s2 ds
    | WriteResult.panicked _ => none

/-- The lifecycle flag and the number of `go d.writeLoop()` statements
executed. -/
structure PoolState where
  started : Bool
  workers : Nat
deriving DecidableEq

/-- The loop body of `Start` (docwriter.go lines 62-66), run `count` times:
each iteration sets `d.started = true` and spawns one worker. -/
def startLoop : PoolState → Nat → PoolState
  | s, 0 => s
  | s, n + 1 => startLoop { started := true, workers := s.workers + 1 } n

/-- `Start` (docwriter.go lines 59-68): the loop runs only when the flag is
unset; note the flag is set inside the loop body, so `Start 0` leaves it
unset. -/
def Start (s : PoolState) (count : Nat) : PoolState :=
  if !s.started then startLoop s count else s

/-- `IsStarted` (docwriter.go lines 71-73). -/
def IsStarted (s : PoolState) : Bool := s.started

/-- A fresh writer's pool state (`New`, line 54: `started: false`). -/
def newPool : PoolState := { started := false, workers := 0 }

/-- Interleaving state for the `Start`/`Write`/`Flush`/`writeLoop`
goroutines: `spawned` counts goroutines launched by `go d.writeLoop()` that
have not yet executed their first statement group (`d.wg.Add(1)`, line 127),
`active` those past it, `wgCount` the `sync.WaitGroup` counter, `flushed`
whether `Flush`'s `d.wg.Wait()` has returned. -/
structure SysState where
  queue    : List Document
  closed   : Bool
  spawned  : Nat
  active   : Nat
  wgCount  : Nat
  flushed  : Bool
  resolved : List Document
deriving DecidableEq

/-- Atomic scheduler events of the docwriter goroutines. -/
inductive GoEvent where
  /-- A spawned `writeLoop` goroutine runs `d.wg.Add(1)` (line 127). -/
  | workerEnter
  /-- An active worker receives a document and resolves it (lines 133-164). -/
  | workerDequeue
  /-- An active worker receives from the closed, drained channel, breaks,
  and runs `d.wg.Done()` (lines 134-136, 166). -/
  | workerExit
  /-- `Flush` runs `close(d.wchan)` (line 98). -/
  | flushClose
  /-- `Flush`'s `d.wg.Wait()` (line 100) observes counter `0` and returns. -/
  | flushWait
deriving DecidableEq

/-- One scheduler event; `none` when the event is not enabled in `s`. -/
def sysStep : GoEvent → SysState → Option SysState
  | GoEvent.workerEnter, s =>
    if s.spawned = 0 then none
    else some { s with spawned := s.spawned - 1, active := s.active + 1,
                       wgCount := s.wgCount + 1 }
  | GoEvent.workerDequeue, s =>
    match s.queue with
    | [] => none
    | d :: rest =>
      if s.active = 0 then none
      else some { s with queue := rest, resolved := s.resolved ++ [d] }
  | GoEvent.workerExit, s =>
    if s.active ≠ 0 ∧ s.closed = true ∧ s.queue = [] then
      some { s with active := s.active - 1, wgCount := s.wgCount - 1 }
    else none
  | GoEvent.flushClose, s =>
    if s.closed then none else some { s with closed := true }
  | GoEvent.flushWait, s =>
    if s.closed = true ∧ s.wgCount = 0 ∧ s.flushed = false then
      some { s with flushed := true }
    else none

/-- Run a schedule; `none` when some event was not enabled. -/
def runTrace : List GoEvent → SysState → Option SysState
  | [], s => some s
  | e :: es, s =>
    match sysStep e s with
    | some s2 => runTrace es s2
    | none => none

/-- State after `Start n` spawned `n` workers and producers enqueued `docs`,
before any worker goroutine has been scheduled: every spawned goroutine is
still short of its `d.wg.Add(1)`, so the `WaitGroup` counter is `0`. -/
def startedState (n : Nat) (docs : List Document) : SysState :=
  { queue := docs, closed := false, spawned := n, active := 0, wgCount := 0,
    flushed := false, resolved := [] }

/-- A concrete document for closed-form evaluations. -/
def doc0 : Document := { Doc := "conn record", DB := "rita", Coll := "conn" }

/-- A fresh writer state for closed-form evaluations: prefix `"rita-"`,
empty caches, channel open and empty. -/
def freshState : DWState :=
  { pre := "rita-", databases := [], addNewDBCalls := [], closed := false,
    queue := [] }

/-- Concrete documents addressing the same database. -/
def docA : Document := { Doc := "a", DB := "db1", Coll := "conn" }

/-- See `docA`. -/
def docB : Document := { Doc := "b", DB := "db1", Coll := "dns" }

/-! ### Properties of the retry engine `expFalloff` -/

theorem expFalloffFrom_attempts_le (ins : Nat → InsertResult) :
    ∀ fuel i, (expFalloffFrom ins fuel i).attempts ≤ fuel := by
  intro fuel
  induction fuel with
  | zero => intro i; simp [expFalloffFrom]
  | succ n ih =>
    intro i
    cases h : ins i with
    | none => simp [expFalloffFrom, h]
    | some e =>
      simp only [expFalloffFrom, h]
      exact Nat.succ_le_succ (ih (i + 1))

theorem expFalloffFrom_sleeps_shape (ins : Nat → InsertResult) :
    ∀ fuel i, (expFalloffFrom ins fuel i).sleeps =
      (List.range' i (expFalloffFrom ins fuel i).attempts).map fun j => j * j := by
  intro fuel
  induction fuel with
  | zero => intro i; simp [expFalloffFrom]
  | succ n ih =>
    intro i
    cases h : ins i with
    | none => simp [expFalloffFrom, h]
    | some e =>
      simp only [expFalloffFrom, h, List.range'_succ, List.map_cons, List.cons.injEq]
      exact ⟨trivial, ih (i + 1)⟩

theorem expFalloffFrom_failed (ins : Nat → InsertResult) :
    ∀ fuel i, (expFalloffFrom ins fuel i).succeeded = false →
      (expFalloffFrom ins fuel i).attempts = fuel ∧
      (expFalloffFrom ins fuel i).errorLogs = fuel := by
  intro fuel
  induction fuel with
  | zero => intro i _; simp [expFalloffFrom]
  | succ n ih =>
    intro i hfail
    cases h : ins i with
    | none => simp [expFalloffFrom, h] at hfail
    | some e =>
      simp only [expFalloffFrom, h] at hfail ⊢
      obtain ⟨h1, h2⟩ := ih (i + 1) hfail
      exact ⟨by rw [h1], by rw [h2]⟩

theorem expFalloffFrom_allFail (ins : Nat → InsertResult) :
    ∀ fuel i, (∀ j, i ≤ j → j < i + fuel → ins j ≠ none) →
      (expFalloffFrom ins fuel i).succeeded = false := by
  intro fuel
  induction fuel with
  | zero => intro i _; simp [expFalloffFrom]
  | succ n ih =>
    intro i hall
    cases h : ins i with
    | none => exact absurd h (hall i (Nat.le_refl i) (by omega))
    | some e =>
      simp only [expFalloffFrom, h]
      exact ih (i + 1) fun j h1 h2 => hall j (by omega) (by omega)

theorem expFalloffFrom_firstSuccess (ins : Nat → InsertResult) :
    ∀ fuel i k, i ≤ k → k < i + fuel → ins k = none →
      (∀ j, i ≤ j → j < k → ins j ≠ none) →
      (expFalloffFrom ins fuel i).succeeded = true ∧
      (expFalloffFrom ins fuel i).attempts = k + 1 - i := by
  intro fuel
  induction fuel with
  | zero => intro i k h1 h2 _ _; omega
  | succ n ih =>
    intro i k hik hk hnone hfail
    by_cases hi : i = k
    · subst hi
      simp [expFalloffFrom, hnone]
    · have hik' : i < k := by omega
      cases h : ins i with
      | none => exact absurd h (hfail i (Nat.le_refl i) hik')
      | some e =>
        simp only [expFalloffFrom, h]
        obtain ⟨h1, h2⟩ := ih (i + 1) k (by omega) (by omega) hnone
          (fun j hj1 hj2 => hfail j (by omega) hj2)
        refine ⟨h1, ?_⟩
        rw [h2]
        omega

theorem expFalloff_attempts_le (ins : Nat → InsertResult) :
    (expFalloff ins).attempts ≤ 5 :=
  expFalloffFrom_attempts_le ins 5 0

theorem expFalloff_sleeps_shape (ins : Nat → InsertResult) :
    (expFalloff ins).sleeps =
      (List.range (expFalloff ins).attempts).map fun j => j * j := by
  rw [List.range_eq_range']
  exact expFalloffFrom_sleeps_shape ins 5 0

theorem squares_sum_le (a : Nat) (ha : a ≤ 5) :
    (((List.range a).map fun j => j * j).sum) ≤ 30 := by
  interval_cases a <;> decide

theorem expFalloff_sleep_sum_le (ins : Nat → InsertResult) :
    (expFalloff ins).sleeps.sum ≤ 30 := by
  rw [expFalloff_sleeps_shape]
  exact squares_sum_le _ (expFalloff_attempts_le ins)

theorem expFalloff_failed (ins : Nat → InsertResult)
    (h : (expFalloff ins).succeeded = false) :
    (expFalloff ins).attempts = 5 ∧ (expFalloff ins).errorLogs = 5 ∧
      (expFalloff ins).sleeps.sum = 30 := by
  obtain ⟨h1, h2⟩ := expFalloffFrom_failed ins 5 0 h
  refine ⟨h1, h2, ?_⟩
  rw [expFalloff_sleeps_shape, show (expFalloff ins).attempts = 5 from h1]
  decide

/-! ### Properties of the content filter -/

theorem strContains_eq_true_iff (s sub : String) :
    strContains s sub = true ↔ sub.data <:+: s.data := by
  constructor
  · intro h
    simp only [strContains, List.any_eq_true, List.mem_range] at h
    obtain ⟨i, _, hpre⟩ := h
    rw [List.isPrefixOf_iff_prefix] at hpre
    exact List.infix_iff_prefix_suffix.mpr ⟨_, hpre, List.drop_suffix i s.data⟩
  · intro h
    obtain ⟨t, hpre, hsuf⟩ := List.infix_iff_prefix_suffix.mp h
    obtain ⟨u, hu⟩ := hsuf
    simp only [strContains, List.any_eq_true, List.mem_range]
    refine ⟨u.length, ?_, ?_⟩
    · have := congrArg List.length hu
      simp only [List.length_append] at this
      omega
    · rw [List.isPrefixOf_iff_prefix, ← hu, List.drop_left]
      exact hpre

/-! ### Properties of one `writeLoop` iteration -/

theorem processDoc_filtered_eq (cfg : WriterConfig) (ins1 : Document → InsertResult)
    (rIns : Document → Nat → InsertResult) (errIn : InsertResult) (d : Document) :
    (processDoc cfg ins1 rIns errIn d).filtered =
      isWhitelisted cfg.Whitelist wholesomeSubject := by
  simp only [processDoc]
  split <;> rfl

theorem processDoc_trichotomy (cfg : WriterConfig) (ins1 : Document → InsertResult)
    (rIns : Document → Nat → InsertResult) (errIn : InsertResult) (d : Document) :
    (processDoc cfg ins1 rIns errIn d).inserted = true ∨
    ((processDoc cfg ins1 rIns errIn d).inserted = false ∧
     (processDoc cfg ins1 rIns errIn d).retried = true ∧
     (processDoc cfg ins1 rIns errIn d).retryAttempts = 5 ∧
     (processDoc cfg ins1 rIns errIn d).retryLogs = 5 ∧
     (processDoc cfg ins1 rIns errIn d).loopLogs = 1) ∨
    ((processDoc cfg ins1 rIns errIn d).inserted = false ∧
     (processDoc cfg ins1 rIns errIn d).filtered = true ∧
     cfg.ImportWl = false ∧
     (processDoc cfg ins1 rIns errIn d).insertAttempts = 0) := by
  cases hf : isWhitelisted cfg.Whitelist wholesomeSubject with
  | false =>
    cases herr : ins1 d with
    | none => left; simp [processDoc, hf, herr]
    | some e =>
      cases hs : (expFalloff (rIns d)).succeeded with
      | true => left; simp [processDoc, hf, herr, hs]
      | false =>
        right; left
        obtain ⟨h1, h2, _⟩ := expFalloff_failed (rIns d) hs
        simp [processDoc, hf, herr, hs, h1, h2]
  | true =>
    cases hw : cfg.ImportWl with
    | true =>
      cases herr : ins1 d with
      | none => left; simp [processDoc, hf, hw, herr]
      | some e =>
        cases hs : (expFalloff (rIns d)).succeeded with
        | true => left; simp [processDoc, hf, hw, herr, hs]
        | false =>
          right; left
          obtain ⟨h1, h2, _⟩ := expFalloff_failed (rIns d) hs
          simp [processDoc, hf, hw, herr, hs, h1, h2]
    | false =>
      cases herr : errIn with
      | none =>
        right; right
        simp [processDoc, hf, hw, herr, StepResult.insertAttempts]
      | some e =>
        cases hs : (expFalloff (rIns d)).succeeded with
        | true => left; simp [processDoc, hf, hw, herr, hs]
        | false =>
          right; left
          obtain ⟨h1, h2, _⟩ := expFalloff_failed (rIns d) hs
          simp [processDoc, hf, hw, herr, hs, h1, h2]

theorem writeLoopRun_fst (cfg : WriterConfig) (ins1 : Document → InsertResult)
    (rIns : Document → Nat → InsertResult) :
    ∀ (errIn : InsertResult) (docs : List Document),
      (writeLoopRun cfg ins1 rIns errIn docs).map Prod.fst = docs := by
  intro errIn docs
  induction docs generalizing errIn with
  | nil => rfl
  | cons d ds ih => simp [writeLoopRun, ih]

theorem writeLoopRun_mem (cfg : WriterConfig) (ins1 : Document → InsertResult)
    (rIns : Document → Nat → InsertResult) :
    ∀ (errIn : InsertResult) (docs : List Document) (p : Document × StepResult),
      p ∈ writeLoopRun cfg ins1 rIns errIn docs →
      ∃ e d, p = (d, processDoc cfg ins1 rIns e d) := by
  intro errIn docs
  induction docs generalizing errIn with
  | nil => intro p hp; simp [writeLoopRun] at hp
  | cons d ds ih =>
    intro p hp
    simp only [writeLoopRun, List.mem_cons] at hp
    cases hp with
    | inl h => exact ⟨errIn, d, h⟩
    | inr h => exact ih _ p h

/-! ### Properties of `Write`'s registry critical section -/

theorem registerDB_closed (s : DWState) (db : String) :
    (registerDB s db).closed = s.closed := by
  unfold registerDB; split <;> rfl

theorem registerDB_pre (s : DWState) (db : String) :
    (registerDB s db).pre = s.pre := by
  unfold registerDB; split <;> rfl

theorem Write_open (s : DWState) (d : Document) (hopen : s.closed = false) :
    Write s d =
      WriteResult.ok
        { registerDB s (s.pre ++ d.DB) with
          queue := (registerDB s (s.pre ++ d.DB)).queue ++ [{ d with DB := s.pre ++ d.DB }] } := by
  unfold Write
  rw [if_neg]
  rw [registerDB_closed, hopen]
  simp

theorem runWrites_invariant (docs : List Document) :
    ∀ s : DWState, s.closed = false → s.databases.Nodup →
      s.addNewDBCalls.Nodup → (∀ n ∈ s.addNewDBCalls, n ∈ s.databases) →
      ∃ s1, runWrites s docs = some s1 ∧ s1.closed = false ∧ s1.pre = s.pre ∧
        s1.databases.Nodup ∧ s1.addNewDBCalls.Nodup ∧
        (∀ n ∈ s1.addNewDBCalls, n ∈ s1.databases) ∧
        (∀ n ∈ s.databases, n ∈ s1.databases) ∧
        (∀ n ∈ s.addNewDBCalls, n ∈ s1.addNewDBCalls) ∧
        (∀ d ∈ docs, (s.pre ++ d.DB) ∈ s1.databases) := by
  induction docs with
  | nil =>
    intro s h1 h2 h3 h4
    exact ⟨s, rfl, h1, rfl, h2, h3, h4, fun n hn => hn, fun n hn => hn, by simp⟩
  | cons d ds ih =>
    intro s h1 h2 h3 h4
    have hw := Write_open s d h1
    set s2 : DWState :=
      { registerDB s (s.pre ++ d.DB) with
        queue := (registerDB s (s.pre ++ d.DB)).queue ++ [{ d with DB := s.pre ++ d.DB }] }
      with hs2
    have hs2closed : s2.closed = false := by
      rw [hs2]; show (registerDB s (s.pre ++ d.DB)).closed = false
      rw [registerDB_closed]; exact h1
    have hs2pre : s2.pre = s.pre := by
      rw [hs2]; show (registerDB s (s.pre ++ d.DB)).pre = s.pre
      exact registerDB_pre s _
    have hreg : s2.databases = (registerDB s (s.pre ++ d.DB)).databases := rfl
    have hcalls : s2.addNewDBCalls = (registerDB s (s.pre ++ d.DB)).addNewDBCalls := rfl
    have hmemd : (s.pre ++ d.DB) ∈ s2.databases := by
      rw [hreg]; unfold registerDB
      split
      · assumption
      · simp
    have hsub : ∀ n ∈ s.databases, n ∈ s2.databases := by
      intro n hn
      rw [hreg]; unfold registerDB
      split
      · exact hn
      · simp [hn]
    have hsubc : ∀ n ∈ s.addNewDBCalls, n ∈ s2.addNewDBCalls := by
      intro n hn
      rw [hcalls]; unfold registerDB
      split
      · exact hn
      · simp [hn]
    have h2' : s2.databases.Nodup := by
      rw [hreg]; unfold registerDB
      split
      · exact h2
      · rename_i hnot
        simp only [List.nodup_append, List.nodup_cons, List.nodup_nil]
        exact ⟨h2, by simp, by simpa using fun h => hnot h⟩
    have h3' : s2.addNewDBCalls.Nodup := by
      rw [hcalls]; unfold registerDB
      split
      · exact h3
      · rename_i hnot
        simp only [List.nodup_append, List.nodup_cons, List.nodup_nil]
        refine ⟨h3, by simp, by simpa using fun h => hnot (h4 _ h)⟩
    have h4' : ∀ n ∈ s2.addNewDBCalls, n ∈ s2.databases := by
      rw [hreg, hcalls]; unfold registerDB
      split
      · exact h4
      · intro n hn
        simp only [List.mem_append, List.mem_singleton] at hn ⊢
        cases hn with
        | inl h => exact Or.inl (h4 n h)
        | inr h => exact Or.inr h
    obtain ⟨s1, hrun, c1, c2, c3, c4, c5, c6, c7, c8⟩ := ih s2 hs2closed h2' h3' h4'
    refine ⟨s1, ?_, c1, by rw [c2, hs2pre], c3, c4, c5,
      fun n hn => c6 n (hsub n hn), fun n hn => c7 n (hsubc n hn), ?_⟩
    · show runWrites s (d :: ds) = some s1
      unfold runWrites
      rw [hw]
      exact hrun
    · intro d2 hd2
      simp only [List.mem_cons] at hd2
      cases hd2 with
      | inl h => subst h; exact c6 _ hmemd
      | inr h =>
        have := c8 d2 h
        rw [hs2pre] at this
        exact this

/-! ### Properties of `Start` -/

theorem startLoop_pos : ∀ (n : Nat) (s : PoolState),
    startLoop s (n + 1) = { started := true, workers := s.workers + (n + 1) } := by
  intro n
  induction n with
  | zero => intro s; rfl
  | succ m ih =>
    intro s
    show startLoop { started := true, workers := s.workers + 1 } (m + 1) = _
    rw [ih]
    simp only [PoolState.mk.injEq, true_and]
    omega

theorem Start_zero (s : PoolState) (h : s.started = false) :
    Start s 0 = s := by
  unfold Start
  rw [h]
  rfl

theorem Start_already (s : PoolState) (h : s.started = true) (m : Nat) :
    Start s m = s := by
  unfold Start
  rw [h]
  rfl

/-! ### The claims -/

/-- C1: for every sequence of enqueued requests a worker drains, every
request is resolved: inserted at least once, or dropped after exactly 5
retry attempts each logged (plus the worker's own failure log), or
intentionally skipped as filtered with no insert attempt; the drain
produces exactly one resolution per enqueued request, in order. -/
theorem c1_enqueued_requests_resolved (cfg : WriterConfig)
    (ins1 : Document → InsertResult) (rIns : Document → Nat → InsertResult)
    (err0 : InsertResult) (docs : List Document) :
    (writeLoopRun cfg ins1 rIns err0 docs).map Prod.fst = docs ∧
    ∀ p ∈ writeLoopRun cfg ins1 rIns err0 docs,
      p.2.inserted = true ∨
      (p.2.inserted = false ∧ p.2.retried = true ∧ p.2.retryAttempts = 5 ∧
        p.2.retryLogs = 5 ∧ p.2.loopLogs = 1) ∨
      (p.2.inserted = false ∧ p.2.filtered = true ∧ cfg.ImportWl = false ∧
        p.2.insertAttempts = 0) := by
  refine ⟨writeLoopRun_fst cfg ins1 rIns err0 docs, ?_⟩
  intro p hp
  obtain ⟨e, d, rfl⟩ := writeLoopRun_mem cfg ins1 rIns err0 docs p hp
  exact processDoc_trichotomy cfg ins1 rIns e d

/-- C2 is violated by the code: `writeLoop` runs `wg.Add(1)` inside the
spawned goroutine, so there is a valid schedule in which `Flush` closes the
channel and `wg.Wait` observes counter `0` and returns while a request
enqueued before `Flush` is still queued and unresolved: one worker started,
one document written, and `Flush` scheduled before the worker goroutine's
first statement. -/
theorem c2_flush_returns_before_drain :
    runTrace [GoEvent.flushClose, GoEvent.flushWait] (startedState 1 [doc0]) =
      some { queue := [doc0], closed := true, spawned := 1, active := 0,
             wgCount := 0, flushed := true, resolved := [] } := by
  rfl

/-- C3 is violated by the code: `Write` after `Flush` reaches
`d.wchan <- doc` with the channel closed, which in Go is an unrecovered
runtime panic crashing the process, not a `ClosedQueueError`-class graceful
failure. -/
theorem c3_write_after_flush_panics :
    Write (flushClose freshState) doc0 =
      WriteResult.panicked "send on closed channel" := by
  rfl

/-- C4 as stated is false: a request whose inserts all fail receives 6
insert attempts in total (the worker's own attempt plus the 5 retry
attempts of `expFalloff`), not 5. -/
theorem c4_counterexample_six_attempts :
    (processDoc { Whitelist := none, ImportWl := false }
        (fun _ => some "write failure") (fun _ _ => some "write failure") none
        doc0).insertAttempts = 6 ∧
    (processDoc { Whitelist := none, ImportWl := false }
        (fun _ => some "write failure") (fun _ _ => some "write failure") none
        doc0).insertAttempts ≠ 5 := by
  decide

/-- C4 amended: for a request whose insert is attempted and persistently
fails, the system makes 6 insert attempts in total — the worker's attempt
plus exactly 5 retry attempts — sleeps exactly 30 backoff time units, emits
one error log entry per failed attempt (6 in total), and then drops the
request. -/
theorem c4_amended_six_attempts (cfg : WriterConfig)
    (ins1 : Document → InsertResult) (rIns : Document → Nat → InsertResult)
    (errIn : InsertResult) (d : Document)
    (hatt : (!isWhitelisted cfg.Whitelist wholesomeSubject || cfg.ImportWl) = true)
    (hfail1 : ins1 d ≠ none)
    (hfailR : ∀ j, j < 5 → rIns d j ≠ none) :
    (processDoc cfg ins1 rIns errIn d).insertAttempts = 6 ∧
    (processDoc cfg ins1 rIns errIn d).retryAttempts = 5 ∧
    (processDoc cfg ins1 rIns errIn d).sleepTotal = 30 ∧
    (processDoc cfg ins1 rIns errIn d).errorLogs = 6 ∧
    (processDoc cfg ins1 rIns errIn d).inserted = false := by
  have hsf : (expFalloff (rIns d)).succeeded = false :=
    expFalloffFrom_allFail (rIns d) 5 0 fun j h1 h2 => hfailR j (by omega)
  obtain ⟨ha, hl, hs⟩ := expFalloff_failed (rIns d) hsf
  obtain ⟨e, he⟩ := Option.ne_none_iff_exists'.mp hfail1
  simp [processDoc, StepResult.insertAttempts, StepResult.errorLogs, hatt, he,
    hsf, ha, hl, hs]

/-- Witness: `c4_amended_six_attempts` at a concrete always-failing
oracle. -/
theorem c4_amended_six_attempts_witness :
    (processDoc { Whitelist := none, ImportWl := false }
        (fun _ => some "write failure") (fun _ _ => some "write failure") none
        doc0).insertAttempts = 6 ∧
    (processDoc { Whitelist := none, ImportWl := false }
        (fun _ => some "write failure") (fun _ _ => some "write failure") none
        doc0).retryAttempts = 5 ∧
    (processDoc { Whitelist := none, ImportWl := false }
        (fun _ => some "write failure") (fun _ _ => some "write failure") none
        doc0).sleepTotal = 30 ∧
    (processDoc { Whitelist := none, ImportWl := false }
        (fun _ => some "write failure") (fun _ _ => some "write failure") none
        doc0).errorLogs = 6 ∧
    (processDoc { Whitelist := none, ImportWl := false }
        (fun _ => some "write failure") (fun _ _ => some "write failure") none
        doc0).inserted = false :=
  c4_amended_six_attempts _ _ _ _ _ (by decide) (by decide) (by decide)

/-- C5: the retry engine sleeps `i²` time units before attempt `i` (its
sleep list is exactly the squares of `0, 1, …, attempts-1`), sleeps at most
30 units in total, makes at most 5 attempts, and when the first success is
at attempt `k` it stops right there, after `k + 1` attempts. -/
theorem c5_retry_backoff_policy (ins : Nat → InsertResult) :
    (expFalloff ins).attempts ≤ 5 ∧
    (expFalloff ins).sleeps =
      (List.range (expFalloff ins).attempts).map (fun i => i * i) ∧
    (expFalloff ins).sleeps.sum ≤ 30 ∧
    (∀ k, k < 5 → ins k = none → (∀ j, j < k → ins j ≠ none) →
      (expFalloff ins).succeeded = true ∧ (expFalloff ins).attempts = k + 1) := by
  refine ⟨expFalloff_attempts_le ins, expFalloff_sleeps_shape ins,
    expFalloff_sleep_sum_le ins, ?_⟩
  intro k hk hnone hfail
  have h := expFalloffFrom_firstSuccess ins 5 0 k (Nat.zero_le k) (by omega) hnone
    fun j h1 h2 => hfail j h2
  exact ⟨h.1, by simpa [expFalloff] using h.2⟩

/-- C6 as universally stated is false at `N = 0`: `Start 0` runs the loop
zero times, so the flag stays false and a second `Start 1` launches one
worker — 1 worker in total, not `N = 0`. -/
theorem c6_counterexample_start_zero :
    (Start (Start newPool 0) 1).workers = 1 ∧
    (Start (Start newPool 0) 1).workers ≠ 0 ∧
    IsStarted (Start newPool 0) = false := by
  decide

/-- C6 amended: for `N ≥ 1`, `Start N` on a fresh pool launches exactly `N`
workers and sets the flag, and any second `Start M` is a no-op (the state is
unchanged), so the total stays `N`; for `N = 0` the flag stays false and a
later `Start` does launch workers. -/
theorem c6_amended_start_idempotent (N M : Nat) (hN : 1 ≤ N) :
    (Start newPool N).workers = N ∧
    IsStarted (Start newPool N) = true ∧
    Start (Start newPool N) M = Start newPool N := by
  obtain ⟨n, rfl⟩ : ∃ n, N = n + 1 := ⟨N - 1, by omega⟩
  have h1 : Start newPool (n + 1) = { started := true, workers := n + 1 } := by
    have h2 : startLoop newPool (n + 1) = { started := true, workers := n + 1 } := by
      rw [startLoop_pos]
      simp [newPool]
    unfold Start
    simpa [newPool] using h2
  refine ⟨by rw [h1], by rw [h1]; rfl, ?_⟩
  rw [h1, Start_already { started := true, workers := n + 1 } rfl M]

/-- Witness: `c6_amended_start_idempotent` at `N = 2`, `M = 3`. -/
theorem c6_amended_start_idempotent_witness :
    (Start newPool 2).workers = 2 ∧
    IsStarted (Start newPool 2) = true ∧
    Start (Start newPool 2) 3 = Start newPool 2 :=
  c6_amended_start_idempotent 2 3 (by decide)

/-- C7: across any sequence of `Write` calls (serialized by `dblock`; the
model runs the critical sections in sequence), the in-memory `Databases`
set stays duplicate-free, `Meta.AddNewDB` is called at most once per name,
and every database name a `Write` referenced is in the set once that
`Write` has returned (membership in the final state, the set growing
monotonically). -/
theorem c7_registry_registered_once (s0 : DWState) (docs : List Document)
    (hopen : s0.closed = false) (hnodup : s0.databases.Nodup)
    (hcalls : s0.addNewDBCalls = []) :
    ∃ s1, runWrites s0 docs = some s1 ∧
      s1.databases.Nodup ∧
      (∀ n, s1.addNewDBCalls.count n ≤ 1) ∧
      (∀ d ∈ docs, (s0.pre ++ d.DB) ∈ s1.databases) := by
  obtain ⟨s1, hrun, _, _, hdnd, hcnd, _, _, _, hmem⟩ :=
    runWrites_invariant docs s0 hopen hnodup
      (by rw [hcalls]; exact List.nodup_nil)
      (by rw [hcalls]; intro n hn; simp at hn)
  exact ⟨s1, hrun, hdnd, fun n => List.nodup_iff_count_le_one.mp hcnd n, hmem⟩

/-- Witness: `c7_registry_registered_once` on a fresh writer and two
documents addressing the same database. -/
theorem c7_registry_registered_once_witness :
    ∃ s1, runWrites freshState [docA, docB] = some s1 ∧
      s1.databases.Nodup ∧
      (∀ n, s1.addNewDBCalls.count n ≤ 1) ∧
      (∀ d ∈ [docA, docB], (freshState.pre ++ d.DB) ∈ s1.databases) :=
  c7_registry_registered_once _ _ rfl (by decide) rfl

/-- C8: the content filter returns false on a nil or empty pattern list,
and otherwise returns true iff the subject contains some pattern as a
case-sensitive contiguous substring; in particular `["foo"]` matches
`"foobar"` and not `"bar"`. -/
theorem c8_isWhitelisted_contract :
    ∀ (wl : List String) (u : String),
      isWhitelisted none u = false ∧
      isWhitelisted (some []) u = false ∧
      (isWhitelisted (some wl) u = true ↔ ∃ p ∈ wl, p.data <:+: u.data) ∧
      isWhitelisted (some ["foo"]) "foobar" = true ∧
      isWhitelisted (some ["foo"]) "bar" = false := by
  intro wl u
  refine ⟨rfl, rfl, ?_, by decide, by decide⟩
  simp only [isWhitelisted, List.any_eq_true]
  constructor
  · rintro ⟨p, hp, hc⟩
    exact ⟨p, hp, (strContains_eq_true_iff u p).mp hc⟩
  · rintro ⟨p, hp, hinf⟩
    exact ⟨p, hp, (strContains_eq_true_iff u p).mpr hinf⟩

/-- C9: the subject `writeLoop` passes to the filter is the fixed
placeholder, so the filter decision is the same for any two documents
processed under the same configuration and depends only on the
configuration. -/
theorem c9_filter_ignores_document (cfg : WriterConfig)
    (ins1 : Document → InsertResult) (rIns : Document → Nat → InsertResult)
    (errIn : InsertResult) (d1 d2 : Document) :
    (processDoc cfg ins1 rIns errIn d1).filtered =
      (processDoc cfg ins1 rIns errIn d2).filtered ∧
    (processDoc cfg ins1 rIns errIn d1).filtered =
      isWhitelisted cfg.Whitelist wholesomeSubject := by
  refine ⟨?_, processDoc_filtered_eq cfg ins1 rIns errIn d1⟩
  rw [processDoc_filtered_eq, processDoc_filtered_eq]

/-- C10: when the document is filtered and the import override is off, no
insert is attempted and the loop-scoped `err` keeps its previous value;
with a stale non-nil error the worker still invokes the retry engine on
the filtered document, and if a retry insert succeeds the filtered
document is inserted despite the filter. -/
theorem c10_stale_error_retries_filtered_document (cfg : WriterConfig)
    (ins1 : Document → InsertResult) (rIns : Document → Nat → InsertResult)
    (errIn : InsertResult) (d : Document)
    (hfilt : isWhitelisted cfg.Whitelist wholesomeSubject = true)
    (hwl : cfg.ImportWl = false) :
    (processDoc cfg ins1 rIns errIn d).filtered = true ∧
    (processDoc cfg ins1 rIns errIn d).attempted = false ∧
    (processDoc cfg ins1 rIns errIn d).errOut = errIn ∧
    (errIn = none → (processDoc cfg ins1 rIns errIn d).retried = false) ∧
    (errIn ≠ none → (processDoc cfg ins1 rIns errIn d).retried = true ∧
      (rIns d 0 = none → (processDoc cfg ins1 rIns errIn d).inserted = true)) := by
  cases herr : errIn with
  | none => simp [processDoc, hfilt, hwl]
  | some e =>
    refine ⟨by simp [processDoc, hfilt, hwl], by simp [processDoc, hfilt, hwl],
      by simp [processDoc, hfilt, hwl], by simp, fun _ => ⟨by simp [processDoc, hfilt, hwl], ?_⟩⟩
    intro h0
    have hsucc : (expFalloff (rIns d)).succeeded = true := by
      simp [expFalloff, expFalloffFrom, h0]
    simp [processDoc, hfilt, hwl, hsucc]

/-- Witness: `c10_stale_error_retries_filtered_document` with whitelist
`["cool"]` (which the fixed placeholder subject contains), override off, a
stale error from the previous iteration, and a retry oracle that succeeds
immediately. -/
theorem c10_stale_error_witness :
    (processDoc { Whitelist := some ["cool"], ImportWl := false }
        (fun _ => some "unused") (fun _ _ => none) (some "stale write failure")
        doc0).filtered = true ∧
    (processDoc { Whitelist := some ["cool"], ImportWl := false }
        (fun _ => some "unused") (fun _ _ => none) (some "stale write failure")
        doc0).attempted = false ∧
    (processDoc { Whitelist := some ["cool"], ImportWl := false }
        (fun _ => some "unused") (fun _ _ => none) (some "stale write failure")
        doc0).errOut = some "stale write failure" ∧
    ((some "stale write failure" : InsertResult) = none →
      (processDoc { Whitelist := some ["cool"], ImportWl := false }
        (fun _ => some "unused") (fun _ _ => none) (some "stale write failure")
        doc0).retried = false) ∧
    ((some "stale write failure" : InsertResult) ≠ none →
      (processDoc { Whitelist := some ["cool"], ImportWl := false }
        (fun _ => some "unused") (fun _ _ => none) (some "stale write failure")
        doc0).retried = true ∧
      ((fun (_ : Document) (_ : Nat) => (none : InsertResult)) doc0 0 = none →
        (processDoc { Whitelist := some ["cool"], ImportWl := false }
          (fun _ => some "unused") (fun _ _ => none) (some "stale write failure")
          doc0).inserted = true)) :=
  c10_stale_error_retries_filtered_document _ _ _ _ _ (by decide) rfl

end DocWriter
